import Mathlib

/-!
Verification development for the configuration-driven ETL pipeline engine
(`yaml_pipeline/action_registry.py`, `yaml_pipeline/config_schema.py`,
`yaml_pipeline/config_loader.py`, `data_pipeline/transform_precleaning.py`).

The Python code is shallowly embedded: YAML trees become an inductive type,
pydantic models become closed field-spec validators, the action registry
becomes an association list, pandas data frames become a record of column
names and rows of cell values, and `difflib.get_close_matches` is modelled
by its documented longest-matching-block similarity score.
-/

namespace ETL

/-- A parsed YAML structural tree (the output of `yaml.safe_load`). -/
inductive Yaml where
  | str (s : String)
  | int (n : Int)
  | bool (b : Bool)
  | null
  | list (xs : List Yaml)
  | map (kvs : List (String × Yaml))

/-- First-match association lookup in a YAML mapping (Python dict keys are
unique, so first-match agrees with dict access). -/
def lookupY (kvs : List (String × Yaml)) (k : String) : Option Yaml :=
  match kvs with
  | [] => none
  | (k', v) :: rest => if k' = k then some v else lookupY rest k

/-! ## Action registry (`yaml_pipeline/action_registry.py`)

`ACTION_REGISTRY: Dict[str, Callable]` is modelled as an association list
from action name to the `__name__` of the implementation (the only
observable of the callable that the registry code itself uses). -/

abbrev Registry := List (String × String)

def containsKey (reg : Registry) (name : String) : Bool :=
  reg.any (fun e => e.1 = name)

/-- Model of `register_action(func_name)` applied to `func`: raises (left component)
if the name is already present, otherwise stores the reference.  The second
component is the registry after the call; the raise happens before the
assignment `ACTION_REGISTRY[func_name] = func`, so on failure the registry
is returned unchanged. -/
def register_action (func_name : String) (func : String) (reg : Registry) :
    Except String Unit × Registry :=
  if containsKey reg func_name then
    (Except.error ("Action " ++ func_name ++ " is already registered with "
      ++ (((reg.filter (fun e => e.1 = func_name)).map Prod.snd).headD "")), reg)
  else
    (Except.ok (), reg ++ [(func_name, func)])

/-- The contents of `ACTION_REGISTRY` once `transform_precleaning.py` has
been imported: the `@register_action(...)` decorators in source order. -/
def actionRegistryNames : List String :=
  ["convert_crs", "rename_columns", "strip_whitespace", "typo_mapping",
   "convert_datetime", "droprows", "drop_by_pairs", "explode_village",
   "split_duplicates", "dissolve_villages", "concat_finalize"]

/-! ## `difflib.get_close_matches` (used by `crosscheck_actions`)

`SequenceMatcher.ratio()` is `2*M/T` where `M` is the total size of the
matching blocks (recursively: the longest contiguous matching block, ties
resolved towards the earliest start in the first then the second sequence)
and `T` the sum of the lengths.  The strings involved are far below the
autojunk threshold (200), so no junk heuristic applies, and the
`quick_ratio` pre-filters are upper bounds of `ratio`, hence redundant for
the membership test against the cutoff. -/

/-- Length of the longest common prefix of two character lists. -/
def commonRun : List Char → List Char → Nat
  | c :: cs, d :: ds => if c = d then commonRun cs ds + 1 else 0
  | _, _ => 0

/-- Model of `SequenceMatcher.find_longest_match` over whole sequences: the longest
matching block `(i, j, k)`, with ties broken towards the smallest `i`,
then the smallest `j`. -/
def findLongestMatch (a b : List Char) : Nat × Nat × Nat :=
  (List.range a.length).foldl
    (fun best i =>
      (List.range b.length).foldl
        (fun best j =>
          let k := commonRun (a.drop i) (b.drop j)
          if best.2.2 < k then (i, j, k) else best)
        best)
    (0, 0, 0)

/-- Total size of the matching blocks (`get_matching_blocks` recursion),
with a fuel argument for termination; the first list shrinks strictly at
every recursive call, so `a.length + 1` fuel always suffices. -/
def matchTotalFuel : Nat → List Char → List Char → Nat
  | 0, _, _ => 0
  | fuel + 1, a, b =>
    let m := findLongestMatch a b
    let i := m.1
    let j := m.2.1
    let k := m.2.2
    if k = 0 then 0
    else
      k + matchTotalFuel fuel (a.take i) (b.take j)
        + matchTotalFuel fuel (a.drop (i + k)) (b.drop (j + k))

def matchTotalChars (a b : List Char) : Nat :=
  matchTotalFuel (a.length + 1) a b

/-- The `ratio()` value as an exact rational `(numerator, denominator)`:
`2*M/T`, and `1.0` when both sequences are empty. -/
def simScore (a b : String) : Nat × Nat :=
  let t := a.length + b.length
  if t = 0 then (1, 1) else (2 * matchTotalChars a.data b.data, t)

/-- The test `ratio() >= cutoff` with the default cutoff `0.6`. -/
def simGeCutoff (x w : String) : Bool :=
  let p := simScore x w
  6 * p.2 ≤ 10 * p.1

/-- Strict comparison of two exact scores (positive denominators). -/
def simGt (p q : Nat × Nat) : Bool :=
  q.1 * p.2 < p.1 * q.2

/-- Python string comparison (lexicographic by code point). -/
def strLtChars : List Char → List Char → Bool
  | [], [] => false
  | [], _ :: _ => true
  | _ :: _, [] => false
  | c :: cs, d :: ds => if c = d then strLtChars cs ds else decide (c < d)

/-- Model of `difflib.get_close_matches(word, possibilities, n=1, cutoff=0.6)`:
keep the possibilities whose ratio against `word` reaches the cutoff and
return the maximum of the `(ratio, string)` pairs, if any (what
`heapq.nlargest(1, ...)` returns). -/
def get_close_matches1 (word : String) (possibilities : List String) : Option String :=
  let candidates := possibilities.filter (fun x => simGeCutoff x word)
  candidates.foldl
    (fun best x =>
      match best with
      | none => some x
      | some b =>
        let px := simScore x word
        let pb := simScore b word
        if simGt px pb || (px.1 * pb.2 = pb.1 * px.2 && strLtChars b.data x.data) then
          some x
        else some b)
    none

/-! ## Rule schema (`yaml_pipeline/config_schema.py`)

Every pydantic parameter model carries `model_config = {"extra": "forbid"}`;
it is embedded as a closed list of named, type-checked fields.  Lax scalar
coercion (e.g. numeric strings to int) is not modelled; no claim depends
on it. -/

/-- One validation error: a field path and a reason, as in the pydantic
fields `err.loc` / `err.msg`. -/
structure Issue where
  loc : List String
  msg : String
deriving DecidableEq

def pushLoc (s : String) (iss : Issue) : Issue :=
  { iss with loc := s :: iss.loc }

/-- One declared field of a closed parameter model. -/
structure FieldSpec where
  name : String
  check : Yaml → Bool

def isStr : Yaml → Bool
  | .str _ => true
  | _ => false

def isBool : Yaml → Bool
  | .bool _ => true
  | _ => false

def isInt : Yaml → Bool
  | .int _ => true
  | _ => false

def isDictStrStr : Yaml → Bool
  | .map kvs => kvs.all (fun kv => isStr kv.2)
  | _ => false

def isDictStrAny : Yaml → Bool
  | .map _ => true
  | _ => false

def isListStr : Yaml → Bool
  | .list xs => xs.all isStr
  | _ => false

def isListInt : Yaml → Bool
  | .list xs => xs.all isInt
  | _ => false

def isIntOrStr (y : Yaml) : Bool :=
  isInt y || isStr y

def isListListIntOrStr : Yaml → Bool
  | .list xs => xs.all (fun x =>
      match x with
      | .list ys => ys.all isIntOrStr
      | _ => false)
  | _ => false

/-- The type `list[Literal["exact", "regex"]]`. -/
def isModeList : Yaml → Bool
  | .list xs => xs.all (fun x =>
      match x with
      | .str s => s = "exact" || s = "regex"
      | _ => false)
  | _ => false

/-- The type `dict[str, dict[str, Any]]`. -/
def isDictStrDictStrAny : Yaml → Bool
  | .map kvs => kvs.all (fun kv => isDictStrAny kv.2)
  | _ => false

def ConvertCRSParams : List FieldSpec :=
  [⟨"to_crs", isStr⟩]

def RenameColumnsParams : List FieldSpec :=
  [⟨"mappings", isDictStrStr⟩]

def StripWhitespaceParams : List FieldSpec :=
  [⟨"dtype", isStr⟩, ⟨"remove_newlines", isBool⟩]

def TypoMappingParams : List FieldSpec :=
  [⟨"mode", isModeList⟩, ⟨"columns", isDictStrDictStrAny⟩]

def ConvertDatetimeParams : List FieldSpec :=
  [⟨"columns", isListStr⟩, ⟨"regex", isStr⟩, ⟨"shift", isInt⟩,
   ⟨"format", isStr⟩, ⟨"cast_to", isStr⟩, ⟨"errors", isStr⟩]

def DropNullsParams : List FieldSpec :=
  [⟨"index", isListInt⟩]

def DropByPairsParams : List FieldSpec :=
  [⟨"index_name", isStr⟩, ⟨"columns", isListStr⟩,
   ⟨"exclude_pairs", isListListIntOrStr⟩]

def ExplodeVillageParams : List FieldSpec :=
  [⟨"source_column", isStr⟩, ⟨"delimiter", isStr⟩, ⟨"keep_original_as", isStr⟩,
   ⟨"sort_by", isStr⟩, ⟨"reset_index", isBool⟩, ⟨"new_index", isStr⟩]

def SplitDuplicatesParams : List FieldSpec :=
  [⟨"subset", isListStr⟩, ⟨"output_aliases", isDictStrStr⟩,
   ⟨"sort_duplicates_by", isStr⟩]

def DissolveVillagesParams : List FieldSpec :=
  [⟨"input", isStr⟩, ⟨"where", isStr⟩, ⟨"by", isStr⟩,
   ⟨"aggregation_rules", isDictStrAny⟩]

def ConcatFinalizeParams : List FieldSpec :=
  [⟨"input", isListStr⟩, ⟨"ignore_index", isBool⟩, ⟨"sort_by", isStr⟩,
   ⟨"reset_index", isBool⟩, ⟨"index_name", isStr⟩, ⟨"output_alias", isStr⟩]

/-- The discriminated union `Rule`: the `action` literal of each
action-bound rule model, paired with its parameter model, in declaration
order. -/
def ruleVariants : List (String × List FieldSpec) :=
  [("convert_crs", ConvertCRSParams),
   ("rename_columns", RenameColumnsParams),
   ("strip_whitespace", StripWhitespaceParams),
   ("typo_mapping", TypoMappingParams),
   ("convert_datetime", ConvertDatetimeParams),
   ("dropnulls", DropNullsParams),
   ("drop_by_pairs", DropByPairsParams),
   ("explode_village", ExplodeVillageParams),
   ("split_duplicates", SplitDuplicatesParams),
   ("dissolve_villages", DissolveVillagesParams),
   ("concat_finalize", ConcatFinalizeParams)]

/-- The action names accepted by schema validation. -/
def schemaActionNames : List String :=
  ruleVariants.map Prod.fst

def lookupVariant (a : String) : Option (List FieldSpec) :=
  match ruleVariants.find? (fun v => v.1 = a) with
  | some v => some v.2
  | none => none

/-- The `type` literal of `BaseRule`. -/
def typeLiterals : List String :=
  ["schema-level", "row-level", "column-level", "data-type-level",
   "domain-specific-transformations", "validation-sanity-checks"]

/-- The `extra = "forbid"` policy: every key outside the declared set is an error. -/
def extraKeyIssues (kvs : List (String × Yaml)) (allowed : List String) : List Issue :=
  (kvs.filter (fun kv => !(allowed.contains kv.1))).map
    (fun kv => ⟨[kv.1], "Extra inputs are not permitted"⟩)

/-- Check one required, typed field of a model. -/
def fieldIssue (kvs : List (String × Yaml)) (name : String) (check : Yaml → Bool) :
    List Issue :=
  match lookupY kvs name with
  | none => [⟨[name], "Field required"⟩]
  | some v => if check v then [] else [⟨[name], "Input type mismatch"⟩]

/-- Validate a parameter object against a closed parameter model: every
declared field required and type-checked, unknown fields rejected, all
errors collected. -/
def validateClosed (specs : List FieldSpec) (y : Yaml) : List Issue :=
  match y with
  | .map kvs =>
    specs.flatMap (fun f => fieldIssue kvs f.name f.check)
      ++ extraKeyIssues kvs (specs.map (fun f => f.name))
  | _ => [⟨[], "Input should be a valid dictionary"⟩]

/-- A validated rule (`BaseRule` fields plus the discriminating `action`
and its validated parameter object).  `str_strip_whitespace` applies to
the plain-string fields. -/
structure RuleV where
  task_name : String
  description : String
  type : String
  action : String
  parameters : Yaml

def strOf : Option Yaml → String
  | some (.str s) => s
  | _ => ""

/-- Python whitespace for `str.strip()` / `str_strip_whitespace`. -/
def isSpaceChar (c : Char) : Bool :=
  c = ' ' || c = '\t' || c = '\n' || c = '\r' || c = '\x0B' || c = '\x0C'

/-- Strip leading and trailing whitespace (`str_strip_whitespace`). -/
def pyStrip (s : String) : String :=
  ⟨((s.data.dropWhile isSpaceChar).reverse.dropWhile isSpaceChar).reverse⟩

/-- All issues of the non-discriminating fields of a rule entry, given the
parameter model selected by its `action` tag. -/
def ruleFieldIssues (specs : List FieldSpec) (kvs : List (String × Yaml)) :
    List Issue :=
  fieldIssue kvs "task_name" isStr
    ++ fieldIssue kvs "description" isStr
    ++ fieldIssue kvs "type" (fun v =>
        match v with
        | .str s => typeLiterals.contains s
        | _ => false)
    ++ (match lookupY kvs "parameters" with
        | none => [⟨["parameters"], "Field required"⟩]
        | some pv => (validateClosed specs pv).map (pushLoc "parameters"))
    ++ extraKeyIssues kvs ["task_name", "description", "type", "action", "parameters"]

/-- Validate one entry of the rules list: discriminated dispatch on the
`action` field, then field-by-field validation collecting every issue. -/
def validateRule (y : Yaml) : Except (List Issue) RuleV :=
  match y with
  | .map kvs =>
    match lookupY kvs "action" with
    | some (.str a) =>
      match lookupVariant a with
      | some specs =>
        let issues := ruleFieldIssues specs kvs
        if issues.isEmpty then
          Except.ok
            { task_name := pyStrip (strOf (lookupY kvs "task_name"))
              description := pyStrip (strOf (lookupY kvs "description"))
              type := strOf (lookupY kvs "type")
              action := a
              parameters := (lookupY kvs "parameters").getD Yaml.null }
        else Except.error issues
      | none => Except.error [⟨["action"], "Input tag does not match any of the expected tags"⟩]
    | some _ => Except.error [⟨["action"], "Input tag does not match any of the expected tags"⟩]
    | none => Except.error [⟨["action"], "Unable to extract tag"⟩]
  | _ => Except.error [⟨[], "Input should be a valid dictionary"⟩]

def errIssues {α : Type} : Except (List Issue) α → List Issue
  | Except.ok _ => []
  | Except.error es => es

/-- Validate the rules list entrywise from index `i`, collecting the
issues of every entry (pydantic validates every list element and
aggregates). -/
def validateRulesFrom (i : Nat) : List Yaml → Except (List Issue) (List RuleV)
  | [] => Except.ok []
  | y :: rest =>
    match validateRule y, validateRulesFrom (i + 1) rest with
    | Except.ok r, Except.ok rs => Except.ok (r :: rs)
    | h, t =>
      Except.error ((errIssues h).map (pushLoc (Nat.repr i)) ++ errIssues t)

/-- The `precleaning_rules` block: `description` plus the ordered rules. -/
structure PrecleaningV where
  description : String
  rules : List RuleV

/-- Model of `PrecleaningRules`: closed, with `description` and `rules`. -/
def validatePrecleaning (y : Yaml) : Except (List Issue) PrecleaningV :=
  match y with
  | .map kvs =>
    let descIss := fieldIssue kvs "description" isStr
    let extraIss := extraKeyIssues kvs ["description", "rules"]
    match lookupY kvs "rules" with
    | some (.list ys) =>
      match validateRulesFrom 0 ys with
      | Except.ok rs =>
        if (descIss ++ extraIss).isEmpty then
          Except.ok { description := strOf (lookupY kvs "description"), rules := rs }
        else Except.error (descIss ++ extraIss)
      | Except.error es =>
        Except.error (descIss ++ extraIss ++ es.map (pushLoc "rules"))
    | some _ => Except.error (descIss ++ extraIss ++ [⟨["rules"], "Input should be a valid list"⟩])
    | none => Except.error (descIss ++ extraIss ++ [⟨["rules"], "Field required"⟩])
  | _ => [⟨[], "Input should be a valid dictionary"⟩] |> Except.error

/-- The whole configuration: exactly the top-level key
`precleaning_rules`. -/
structure RootConfigV where
  precleaning_rules : PrecleaningV

/-- Model of `validate_config_dict`: validate the tree against `RootConfig`,
returning the typed configuration or the aggregated issue list. -/
def validate_config_dict (y : Yaml) : Except (List Issue) RootConfigV :=
  match y with
  | .map kvs =>
    let extraIss := extraKeyIssues kvs ["precleaning_rules"]
    match lookupY kvs "precleaning_rules" with
    | some py =>
      match validatePrecleaning py with
      | Except.ok pc =>
        if extraIss.isEmpty then Except.ok { precleaning_rules := pc }
        else Except.error extraIss
      | Except.error es =>
        Except.error (extraIss ++ es.map (pushLoc "precleaning_rules"))
    | none => Except.error (extraIss ++ [⟨["precleaning_rules"], "Field required"⟩])
  | _ => [⟨[], "Input should be a valid dictionary"⟩] |> Except.error

/-- The rules list declared in a configuration tree (the entries under
`precleaning_rules.rules`), when that path exists. -/
def declaredRules (y : Yaml) : Option (List Yaml) :=
  match y with
  | .map kvs =>
    match lookupY kvs "precleaning_rules" with
    | some (.map pkvs) =>
      match lookupY pkvs "rules" with
      | some (.list ys) => some ys
      | _ => none
    | _ => none
  | _ => none

/-! ## Config loader (`yaml_pipeline/config_loader.py`) -/

/-- Core of `crosscheck_actions` over the referenced action names: the set
of used names (a Python set, modelled as a deduplicated list) minus the
registered names; success when empty, otherwise one aggregated error
carrying each missing name with its optional `difflib` suggestion. -/
def missingActions (used registered : List String) : List String :=
  used.dedup.filter (fun n => !(registered.contains n))

def crosscheckNames (used registered : List String) :
    Except (List (String × Option String)) Unit :=
  let missing := missingActions used registered
  if missing.isEmpty then Except.ok ()
  else Except.error (missing.map (fun n => (n, get_close_matches1 n registered)))

/-- Model of `crosscheck_actions(cfg)`, with the ambient `ACTION_REGISTRY` as an
explicit `registered` argument. -/
def crosscheck_actions (cfg : RootConfigV) (registered : List String) :
    Except (List (String × Option String)) Unit :=
  crosscheckNames (cfg.precleaning_rules.rules.map (fun r => r.action)) registered

inductive LoadErr where
  | validation (es : List Issue)
  | crosscheck (es : List (String × Option String))

/-- Model of `load_and_validate` after the YAML text has been parsed: schema
validation followed by the registry cross-check. -/
def load_and_validate (y : Yaml) (registered : List String) :
    Except LoadErr RootConfigV :=
  match validate_config_dict y with
  | Except.error es => Except.error (LoadErr.validation es)
  | Except.ok cfg =>
    match crosscheck_actions cfg registered with
    | Except.error es => Except.error (LoadErr.crosscheck es)
    | Except.ok _ => Except.ok cfg

/-! ## Transformations (`data_pipeline/transform_precleaning.py`)

A pandas `DataFrame` is modelled as an ordered list of column names plus
rows of cell values; a `GeoDataFrame` additionally carries the optional
coordinate reference system.  Only the structure the claims touch is
modelled; the numeric content of cells is opaque data. -/

/-- A cell value. -/
inductive Val where
  | s (v : String)
  | i (n : Int)
  | b (v : Bool)
  | null
deriving DecidableEq

structure DataFrame where
  columns : List String
  rows : List (List Val)
deriving DecidableEq

structure GeoDataFrame where
  df : DataFrame
  crs : Option String
deriving DecidableEq

/-- The `parameters` of `convert_crs`: the `to_crs` lookup yields
`None` when the key is absent. -/
structure ConvertCRSArgs where
  to_crs : Option String

/-- Reprojection to a target reference system (`gdf.to_crs`).  The
geometric transformation itself is performed by an external library; the
model records only the reference-system metadata, which is all the claims
inspect (this branch is never the already-in-target case). -/
def to_crs_impl (gdf : GeoDataFrame) (t : String) : GeoDataFrame :=
  { gdf with crs := some t }

/-- Model of `convert_crs`: returns the input unchanged when no target is given or
the current reference system already equals the target; converts
otherwise; any exception (e.g. `gdf.crs.to_string()` on a missing CRS) is
caught and turned into `None`.  pyproj compares a `CRS` against a string
and `to_string` renders it back, so both Python comparisons collapse to
one string equality in the model. -/
def convert_crs (gdf : GeoDataFrame) (parameters : ConvertCRSArgs) :
    Option GeoDataFrame :=
  match parameters.to_crs with
  | none => some gdf
  | some t =>
    if t = "" then some gdf
    else
      match gdf.crs with
      | some c => if c = t then some gdf else some (to_crs_impl gdf t)
      | none => none

/-- The `parameters` of `rename_columns`: the `mappings` dict. -/
structure RenameColumnsArgs where
  mappings : List (String × String)

/-- Model of `df.rename(columns=mappings)`: each column name is replaced by its
image under the mapping, absent names stay. -/
def renameDataFrame (df : DataFrame) (mappings : List (String × String)) :
    DataFrame :=
  { df with columns := df.columns.map (fun c => ((mappings.lookup c).getD c)) }

/-- Model of `rename_columns`: an absent parameters object defaults to an
empty one, the mappings entry defaults to an empty dict, and an empty
mapping yields `None`. -/
def rename_columns (df : DataFrame) (parameters : Option RenameColumnsArgs) :
    Option DataFrame :=
  let ps := parameters.getD ⟨[]⟩
  if ps.mappings.isEmpty then none
  else some (renameDataFrame df ps.mappings)

/-- The `parameters` of `split_duplicates`. -/
structure SplitDuplicatesArgs where
  subset : List String
  output_aliases : List (String × String)
  sort_duplicates_by : Option String

/-- The cell of a row in a named column. -/
def cellAt (df : DataFrame) (c : String) (r : List Val) : Val :=
  r.getD (df.columns.indexOf c) Val.null

/-- The projection of a row to the subset columns used for duplicate
detection. -/
def projectRow (df : DataFrame) (subset : List String) (r : List Val) : List Val :=
  subset.map (fun c => cellAt df c r)

/-- Model of `df.duplicated(subset=..., keep=False)` at one row: the
subset projection of the row occurs more than once in the frame. -/
def isDupRow (df : DataFrame) (subset : List String) (r : List Val) : Bool :=
  2 ≤ (df.rows.filter
        (fun q => projectRow df subset q = projectRow df subset r)).length

/-- Total order on cell values used for `sort_values` (rank by
constructor, then the natural order inside; pandas would compare
homogeneous columns). -/
def valLe : Val → Val → Bool
  | Val.null, _ => true
  | Val.b _, Val.null => false
  | Val.b x, Val.b y => !x || y
  | Val.b _, _ => true
  | Val.i _, Val.null => false
  | Val.i _, Val.b _ => false
  | Val.i x, Val.i y => decide (x ≤ y)
  | Val.i _, Val.s _ => true
  | Val.s x, Val.s y => decide (x ≤ y)
  | Val.s _, _ => false

/-- Model of `df.sort_values(by=c)`: rows reordered by the values of column `c`
(the model uses a comparison sort; the default quicksort of pandas
likewise orders by the key, and no claim relies on tie order). -/
def sortRowsBy (df : DataFrame) (c : String) : DataFrame :=
  let sorted := df.rows.insertionSort
    (fun r q => valLe (cellAt df c r) (cellAt df c q) = true)
  { df with rows := sorted }

/-- The duplicates output of `split_duplicates`: the rows marked by
`duplicated(keep=False)`, then sorted when `sort_duplicates_by` is a
truthy name of a column of the frame. -/
def splitDupes (df : DataFrame) (p : SplitDuplicatesArgs) : DataFrame :=
  let dupes : DataFrame := { df with rows := df.rows.filter (isDupRow df p.subset) }
  match p.sort_duplicates_by with
  | some c => if c ≠ "" && dupes.columns.contains c then sortRowsBy dupes c else dupes
  | none => dupes

/-- The unique output of `split_duplicates`: the unmarked rows. -/
def splitUnique (df : DataFrame) (p : SplitDuplicatesArgs) : DataFrame :=
  { df with rows := df.rows.filter (fun r => !(isDupRow df p.subset r)) }

/-- Model of `split_duplicates`: the returned dict, as the association list of the
two aliased outputs (aliases default to "duplicates" / "unique"). -/
def split_duplicates (df : DataFrame) (p : SplitDuplicatesArgs) :
    List (String × DataFrame) :=
  [((p.output_aliases.lookup "duplicates").getD "duplicates", splitDupes df p),
   ((p.output_aliases.lookup "unique").getD "unique", splitUnique df p)]

/-! ## Lemmas about the registry cross-check -/

lemma mem_missingActions {used registered : List String} {n : String} :
    n ∈ missingActions used registered ↔ n ∈ used ∧ n ∉ registered := by
  simp [missingActions, List.mem_filter, List.mem_dedup]

lemma missingActions_eq_nil_iff {used registered : List String} :
    missingActions used registered = [] ↔ ∀ n ∈ used, n ∈ registered := by
  constructor
  · intro h n hn
    by_contra hreg
    have : n ∈ missingActions used registered := mem_missingActions.mpr ⟨hn, hreg⟩
    simp [h] at this
  · intro h
    by_contra hne
    rcases List.exists_mem_of_ne_nil _ hne with ⟨n, hn⟩
    rcases mem_missingActions.mp hn with ⟨hu, hr⟩
    exact hr (h n hu)

lemma crosscheckNames_ok_iff {used registered : List String} :
    crosscheckNames used registered = Except.ok () ↔ ∀ n ∈ used, n ∈ registered := by
  by_cases h : missingActions used registered = []
  · have hval : crosscheckNames used registered = Except.ok () := by
      unfold crosscheckNames; simp [h]
    rw [hval]
    exact iff_of_true rfl (missingActions_eq_nil_iff.mp h)
  · have hne : (missingActions used registered).isEmpty = false := by
      simpa [List.isEmpty_iff] using h
    have hval : crosscheckNames used registered =
        Except.error ((missingActions used registered).map
          (fun n => (n, get_close_matches1 n registered))) := by
      unfold crosscheckNames; simp [hne]
    rw [hval]
    constructor
    · intro hc
      exact Except.noConfusion hc
    · intro hall
      exact absurd (missingActions_eq_nil_iff.mpr hall) h

lemma crosscheckNames_error_eq {used registered : List String}
    {es : List (String × Option String)}
    (h : crosscheckNames used registered = Except.error es) :
    es = (missingActions used registered).map
      (fun n => (n, get_close_matches1 n registered)) := by
  unfold crosscheckNames at h
  by_cases hm : (missingActions used registered).isEmpty = true
  · simp [hm] at h
  · have : (missingActions used registered).isEmpty = false := by
      simpa using hm
    simp [this] at h
    exact h.symm

lemma crosscheckNames_error_of_mem {used registered : List String} {n : String}
    (hu : n ∈ used) (hr : n ∉ registered) :
    ∃ es, crosscheckNames used registered = Except.error es ∧
      n ∈ es.map Prod.fst := by
  have hmem : n ∈ missingActions used registered := mem_missingActions.mpr ⟨hu, hr⟩
  have hne0 : missingActions used registered ≠ [] := by
    intro h0
    rw [h0] at hmem
    simp at hmem
  have hne : (missingActions used registered).isEmpty = false := by
    simpa [List.isEmpty_iff] using hne0
  refine ⟨(missingActions used registered).map
      (fun n => (n, get_close_matches1 n registered)), ?_, ?_⟩
  · unfold crosscheckNames; simp [hne]
  · exact List.mem_map.mpr
      ⟨(n, get_close_matches1 n registered), List.mem_map.mpr ⟨n, hmem, rfl⟩, rfl⟩

/-! ## Lemmas about the closest-match suggestion -/

lemma foldl_pick_isSome (step : Option String → String → Option String)
    (hstep : ∀ b x, (step (some b) x).isSome = true) :
    ∀ (l : List String) (b : String), ((l.foldl step (some b)).isSome = true) := by
  intro l
  induction l with
  | nil => intro b; simp
  | cons x xs ih =>
    intro b
    have := hstep b x
    rcases hs : step (some b) x with _ | b'
    · rw [hs] at this; simp at this
    · simpa [hs] using ih b'

lemma get_close_matches1_isSome_iff {word : String} {possibilities : List String} :
    (get_close_matches1 word possibilities).isSome = true ↔
      ∃ m ∈ possibilities, simGeCutoff m word = true := by
  unfold get_close_matches1
  rcases hc : possibilities.filter (fun x => simGeCutoff x word) with _ | ⟨c, cs⟩
  · constructor
    · intro h; simp at h
    · rintro ⟨m, hm, hcut⟩
      have : m ∈ possibilities.filter (fun x => simGeCutoff x word) :=
        List.mem_filter.mpr ⟨hm, hcut⟩
      simp [hc] at this
  · constructor
    · intro _
      have : c ∈ possibilities.filter (fun x => simGeCutoff x word) := by
        simp [hc]
      exact ⟨c, (List.mem_filter.mp this).1, (List.mem_filter.mp this).2⟩
    · intro _
      simp only [List.foldl_cons]
      exact foldl_pick_isSome _
        (by intro b x; split <;> first | rfl | (split <;> rfl)) cs c

/-! ## Lemmas about schema validation -/

lemma validateRulesFrom_ok {i : Nat} {ys : List Yaml} {rs : List RuleV}
    (h : validateRulesFrom i ys = Except.ok rs) :
    rs.length = ys.length ∧
      ∀ k (hk : k < ys.length) (hk' : k < rs.length),
        validateRule (ys.get ⟨k, hk⟩) = Except.ok (rs.get ⟨k, hk'⟩) := by
  induction ys generalizing i rs with
  | nil =>
    cases h
    exact ⟨rfl, fun k hk => absurd hk (by simp)⟩
  | cons y rest ih =>
    rcases h1 : validateRule y with es | r
    · rw [validateRulesFrom, h1] at h
      rcases h2 : validateRulesFrom (i + 1) rest with es2 | rs2 <;> rw [h2] at h <;>
        exact Except.noConfusion h
    · rw [validateRulesFrom, h1] at h
      rcases h2 : validateRulesFrom (i + 1) rest with es2 | rs2 <;> rw [h2] at h
      · exact Except.noConfusion h
      · cases h
        rcases ih h2 with ⟨hlen, hget⟩
        refine ⟨by simp [hlen], ?_⟩
        intro k hk hk'
        cases k with
        | zero => simpa using h1
        | succ k =>
          exact hget k (by simpa using hk) (by simpa using hk')

lemma validateRulesFrom_ok_mem {i : Nat} {ys : List Yaml} {rs : List RuleV}
    (h : validateRulesFrom i ys = Except.ok rs) :
    ∀ r ∈ rs, ∃ y ∈ ys, validateRule y = Except.ok r := by
  induction ys generalizing i rs with
  | nil =>
    cases h
    intro r hr
    simp at hr
  | cons y rest ih =>
    rcases h1 : validateRule y with es | r0
    · rw [validateRulesFrom, h1] at h
      rcases h2 : validateRulesFrom (i + 1) rest with es2 | rs2 <;> rw [h2] at h <;>
        exact Except.noConfusion h
    · rw [validateRulesFrom, h1] at h
      rcases h2 : validateRulesFrom (i + 1) rest with es2 | rs2 <;> rw [h2] at h
      · exact Except.noConfusion h
      · cases h
        intro r hr
        rcases List.mem_cons.mp hr with h0 | h0
        · exact ⟨y, List.mem_cons_self y rest, h0 ▸ h1⟩
        · rcases ih h2 r h0 with ⟨y', hy', hv⟩
          exact ⟨y', List.mem_cons_of_mem y hy', hv⟩

lemma validateRulesFrom_error_mem {ys : List Yaml} :
    ∀ (i k : Nat) (hk : k < ys.length) (iss : Issue),
      iss ∈ errIssues (validateRule (ys.get ⟨k, hk⟩)) →
      pushLoc (Nat.repr (i + k)) iss ∈ errIssues (validateRulesFrom i ys) := by
  induction ys with
  | nil =>
    intro i k hk
    exact absurd hk (by simp)
  | cons y rest ih =>
    intro i k hk iss hmem
    cases k with
    | zero =>
      rcases h1 : validateRule y with es | r
      · rcases h2 : validateRulesFrom (i + 1) rest with es2 | rs2 <;>
          simp only [validateRulesFrom, h1, h2, errIssues] <;>
          · refine List.mem_append_left _ (List.mem_map.mpr ⟨iss, ?_, rfl⟩)
            simpa [errIssues, h1] using hmem
      · simp only [List.get] at hmem
        rw [h1] at hmem
        simp [errIssues] at hmem
    | succ k =>
      have hk' : k < rest.length := by simpa using hk
      have tailmem := ih (i + 1) k hk' iss (by simpa using hmem)
      have harith : (i + 1) + k = i + (k + 1) := by omega
      rw [harith] at tailmem
      rcases h2 : validateRulesFrom (i + 1) rest with es2 | rs2
      · rcases h1 : validateRule y with es | r <;>
          simp only [validateRulesFrom, h1, h2, errIssues] <;>
          · refine List.mem_append_right _ ?_
            simpa [errIssues, h2] using tailmem
      · rw [h2] at tailmem
        simp [errIssues] at tailmem

lemma validatePrecleaning_ok {py : Yaml} {pc : PrecleaningV}
    (h : validatePrecleaning py = Except.ok pc) :
    ∃ pkvs ys, py = Yaml.map pkvs ∧ lookupY pkvs "rules" = some (Yaml.list ys) ∧
      validateRulesFrom 0 ys = Except.ok pc.rules := by
  unfold validatePrecleaning at h
  split at h
  · split at h
    · split at h
      · rename_i a pkvs b ys hr c rs h2
        dsimp only at h
        split at h
        · cases h
          exact ⟨pkvs, ys, rfl, hr, h2⟩
        · exact Except.noConfusion h
      · exact Except.noConfusion h
    · exact Except.noConfusion h
    · exact Except.noConfusion h
  · exact Except.noConfusion h

lemma validate_config_dict_ok {y : Yaml} {cfg : RootConfigV}
    (h : validate_config_dict y = Except.ok cfg) :
    ∃ ys, declaredRules y = some ys ∧
      validateRulesFrom 0 ys = Except.ok cfg.precleaning_rules.rules := by
  unfold validate_config_dict at h
  split at h
  · split at h
    · split at h
      · rename_i a kvs b py hp c pc h2
        dsimp only at h
        split at h
        · cases h
          rcases validatePrecleaning_ok h2 with ⟨pkvs, ys, hpy, hr, hv⟩
          subst hpy
          exact ⟨ys, by simp [declaredRules, hp, hr], hv⟩
        · exact Except.noConfusion h
      · exact Except.noConfusion h
    · exact Except.noConfusion h
  · exact Except.noConfusion h

lemma declaredRules_some {y : Yaml} {ys : List Yaml} (h : declaredRules y = some ys) :
    ∃ kvs pkvs, y = Yaml.map kvs ∧
      lookupY kvs "precleaning_rules" = some (Yaml.map pkvs) ∧
      lookupY pkvs "rules" = some (Yaml.list ys) := by
  unfold declaredRules at h
  split at h
  · split at h
    · split at h
      · rename_i a kvs b pkvs hp c ys2 hr
        cases h
        exact ⟨kvs, pkvs, rfl, hp, hr⟩
      · exact Option.noConfusion h
    · exact Option.noConfusion h
  · exact Option.noConfusion h

lemma validatePrecleaning_rules_error_eq {pkvs : List (String × Yaml)}
    {ys : List Yaml} {esr : List Issue}
    (hr : lookupY pkvs "rules" = some (Yaml.list ys))
    (h2 : validateRulesFrom 0 ys = Except.error esr) :
    validatePrecleaning (Yaml.map pkvs) =
      Except.error (fieldIssue pkvs "description" isStr
        ++ extraKeyIssues pkvs ["description", "rules"]
        ++ esr.map (pushLoc "rules")) := by
  simp [validatePrecleaning, hr, h2]

lemma validate_config_dict_pre_error_eq {kvs : List (String × Yaml)}
    {py : Yaml} {esp : List Issue}
    (hp : lookupY kvs "precleaning_rules" = some py)
    (hpe : validatePrecleaning py = Except.error esp) :
    validate_config_dict (Yaml.map kvs) =
      Except.error (extraKeyIssues kvs ["precleaning_rules"]
        ++ esp.map (pushLoc "precleaning_rules")) := by
  simp [validate_config_dict, hp, hpe]

lemma lookupVariant_mem {a : String} {specs : List FieldSpec}
    (h : lookupVariant a = some specs) : a ∈ schemaActionNames := by
  unfold lookupVariant at h
  rcases hf : ruleVariants.find? (fun v => v.1 = a) with _ | v
  · rw [hf] at h
    exact Option.noConfusion h
  · have hv := List.mem_of_find?_eq_some hf
    have hp : v.1 = a := by simpa using List.find?_some hf
    exact hp ▸ List.mem_map.mpr ⟨v, hv, rfl⟩

lemma validateRule_ok_action {y : Yaml} {r : RuleV}
    (h : validateRule y = Except.ok r) : r.action ∈ schemaActionNames := by
  unfold validateRule at h
  split at h
  · split at h
    · split at h
      · rename_i a kvs b c d hvar
        dsimp only at h
        split at h
        · cases h
          exact lookupVariant_mem hvar
        · exact Except.noConfusion h
      · exact Except.noConfusion h
    · exact Except.noConfusion h
    · exact Except.noConfusion h
  · exact Except.noConfusion h

lemma extra_issue_mem_validateClosed {specs : List FieldSpec}
    {pkvs : List (String × Yaml)} {k : String} {v : Yaml}
    (hkv : (k, v) ∈ pkvs) (hnot : k ∉ specs.map (fun f => f.name)) :
    (⟨[k], "Extra inputs are not permitted"⟩ : Issue)
      ∈ validateClosed specs (Yaml.map pkvs) := by
  unfold validateClosed
  refine List.mem_append_right _ ?_
  unfold extraKeyIssues
  refine List.mem_map.mpr ⟨(k, v), List.mem_filter.mpr ⟨hkv, ?_⟩, rfl⟩
  simpa using hnot

lemma validateRule_error_of_extra_param {a : String} {specs : List FieldSpec}
    {kvs pkvs : List (String × Yaml)} {k : String} {v : Yaml}
    (hvar : lookupVariant a = some specs)
    (ha : lookupY kvs "action" = some (Yaml.str a))
    (hp : lookupY kvs "parameters" = some (Yaml.map pkvs))
    (hkv : (k, v) ∈ pkvs)
    (hnot : k ∉ specs.map (fun f => f.name)) :
    ∃ es, validateRule (Yaml.map kvs) = Except.error es ∧
      pushLoc "parameters" ⟨[k], "Extra inputs are not permitted"⟩ ∈ es := by
  have hmem0 := extra_issue_mem_validateClosed hkv hnot
  have hmem : pushLoc "parameters" ⟨[k], "Extra inputs are not permitted"⟩
      ∈ ruleFieldIssues specs kvs := by
    unfold ruleFieldIssues
    rw [hp]
    exact List.mem_append_left _
      (List.mem_append_right _ (List.mem_map.mpr ⟨_, hmem0, rfl⟩))
  have hne : ruleFieldIssues specs kvs ≠ [] := by
    intro h0
    rw [h0] at hmem
    simp at hmem
  have hie : (ruleFieldIssues specs kvs).isEmpty = false := by
    simpa [List.isEmpty_iff] using hne
  refine ⟨ruleFieldIssues specs kvs, ?_, hmem⟩
  simp [validateRule, ha, hvar, hie]

/-! ## Lemmas about the duplicate split -/

lemma splitDupes_rows_perm (df : DataFrame) (p : SplitDuplicatesArgs) :
    ((splitDupes df p).rows).Perm (df.rows.filter (isDupRow df p.subset)) := by
  unfold splitDupes
  rcases p.sort_duplicates_by with _ | c
  · exact List.Perm.refl _
  · dsimp only
    split
    · unfold sortRowsBy
      exact List.perm_insertionSort _ _
    · exact List.Perm.refl _

lemma splitDupes_mem {df : DataFrame} {p : SplitDuplicatesArgs} {r : List Val} :
    r ∈ (splitDupes df p).rows ↔
      r ∈ df.rows ∧ isDupRow df p.subset r = true := by
  rw [(splitDupes_rows_perm df p).mem_iff]
  exact List.mem_filter

lemma splitUnique_mem {df : DataFrame} {p : SplitDuplicatesArgs} {r : List Val} :
    r ∈ (splitUnique df p).rows ↔
      r ∈ df.rows ∧ isDupRow df p.subset r = false := by
  unfold splitUnique
  dsimp only
  rw [List.mem_filter]
  simp

lemma split_lengths (df : DataFrame) (p : SplitDuplicatesArgs) :
    (splitDupes df p).rows.length + (splitUnique df p).rows.length
      = df.rows.length := by
  have h1 := (splitDupes_rows_perm df p).length_eq
  have h2 := (List.filter_append_perm
    (fun r => isDupRow df p.subset r) df.rows).length_eq
  rw [List.length_append] at h2
  rw [h1]
  unfold splitUnique
  exact h2

lemma splitUnique_sublist (df : DataFrame) (p : SplitDuplicatesArgs) :
    List.isSublist (splitUnique df p).rows df.rows = true :=
  List.isSublist_iff_sublist.mpr (List.filter_sublist _)

lemma splitDupes_sublist_of_nosort (df : DataFrame) (p : SplitDuplicatesArgs)
    (h : p.sort_duplicates_by = none) :
    List.isSublist (splitDupes df p).rows df.rows = true := by
  unfold splitDupes
  rw [h]
  exact List.isSublist_iff_sublist.mpr (List.filter_sublist _)

lemma splitDupes_sublist_of_badcol (df : DataFrame) (p : SplitDuplicatesArgs)
    (c : String) (h : p.sort_duplicates_by = some c)
    (hc : c = "" ∨ df.columns.contains c = false) :
    List.isSublist (splitDupes df p).rows df.rows = true := by
  unfold splitDupes
  rw [h]
  dsimp only
  have hcond : (c ≠ "" && df.columns.contains c) = false := by
    rcases hc with hc | hc
    · simp [hc]
    · simp only [hc, Bool.and_false]
  rw [hcond]
  exact List.isSublist_iff_sublist.mpr (List.filter_sublist _)

/-! ## Concrete inputs used by the claims -/

def exDf1 : DataFrame := ⟨["a", "b"], [[Val.i 1, Val.i 2]]⟩

def exDf8 : DataFrame :=
  ⟨["k", "v"], [[Val.i 10, Val.i 0], [Val.i 7, Val.i 1], [Val.i 8, Val.i 2],
    [Val.i 7, Val.i 3], [Val.i 8, Val.i 4]]⟩

def exArgs8 : SplitDuplicatesArgs := ⟨["k"], [], none⟩

def exDf9 : DataFrame := ⟨["g", "k"], [[Val.s "a", Val.i 2], [Val.s "a", Val.i 1]]⟩

def exArgs9 : SplitDuplicatesArgs := ⟨["g"], [], some "k"⟩

def exArgs9b : SplitDuplicatesArgs := ⟨["g"], [], some "zz"⟩

def exGdf : GeoDataFrame := ⟨⟨["name"], [[Val.s "x"]]⟩, some "EPSG:3826"⟩

def exReg : Registry := [("convert_crs", "convert_crs")]

/-! ## Claims -/

/-- C1, counterexample: `rename_columns` invoked with an empty mapping (or
with the parameters object absent) on a one-row dataset returns an absent
result (`None`), contradicting the claim that it returns a dataset whose
column names equal the input column names and never an absent result. -/
theorem rename_columns_empty_absent_cex :
    rename_columns exDf1 (some ⟨[]⟩) = none ∧ rename_columns exDf1 none = none :=
  ⟨rfl, rfl⟩

/-- C1, amended: `rename_columns` with an empty or absent mapping returns
an absent result (`None`); with a nonempty mapping it returns a dataset
whose column names are the input column names renamed through the
mapping. -/
theorem rename_columns_spec_amended :
    (∀ df : DataFrame, rename_columns df none = none) ∧
    (∀ df : DataFrame, rename_columns df (some ⟨[]⟩) = none) ∧
    (∀ (df : DataFrame) (m : List (String × String)), m ≠ [] →
      rename_columns df (some ⟨m⟩) = some (renameDataFrame df m)) := by
  refine ⟨fun df => rfl, fun df => rfl, ?_⟩
  intro df m hm
  cases m with
  | nil => exact absurd rfl hm
  | cons a as => rfl

/-- C1, witness for the amended claim at a concrete nonempty mapping. -/
theorem rename_columns_spec_amended_witness :
    rename_columns exDf1 (some ⟨[("a", "x")]⟩)
      = some (renameDataFrame exDf1 [("a", "x")]) :=
  rename_columns_spec_amended.2.2 exDf1 [("a", "x")] (List.cons_ne_nil _ _)

/-- C3: registering under a name that is already present in the registry
fails with an error, and the registry is returned unchanged by the failed
attempt: the existing entry is not overwritten and no entry is added or
removed. -/
theorem register_action_duplicate_spec :
    ∀ (name func : String) (reg : Registry), containsKey reg name = true →
      (∃ msg, (register_action name func reg).1 = Except.error msg) ∧
      (register_action name func reg).2 = reg := by
  intro name func reg h
  constructor
  · refine ⟨"Action " ++ name ++ " is already registered with "
      ++ (((reg.filter (fun e => e.1 = name)).map Prod.snd).headD ""), ?_⟩
    simp [register_action, h]
  · simp [register_action, h]

/-- C3, witness: a second registration of `convert_crs` on a registry that
already holds it. -/
theorem register_action_duplicate_spec_witness :
    (∃ msg, (register_action "convert_crs" "other_impl" exReg).1 = Except.error msg) ∧
    (register_action "convert_crs" "other_impl" exReg).2 = exReg :=
  register_action_duplicate_spec "convert_crs" "other_impl" exReg (by decide)

/-- C10: converting a geospatial dataset whose reference system already
equals the `to_crs` target succeeds and returns the identical dataset. -/
theorem convert_crs_noop_spec :
    ∀ (gdf : GeoDataFrame) (t : String), gdf.crs = some t →
      convert_crs gdf ⟨some t⟩ = some gdf := by
  intro gdf t h
  unfold convert_crs
  dsimp only
  by_cases ht : t = ""
  · rw [if_pos ht]
  · rw [if_neg ht, h]
    simp

/-- C10, witness at a concrete frame already in the target system. -/
theorem convert_crs_noop_spec_witness :
    convert_crs exGdf ⟨some "EPSG:3826"⟩ = some exGdf :=
  convert_crs_noop_spec exGdf "EPSG:3826" rfl

/-- C8: on the 5-row frame whose rows 1,3 and 2,4 agree on the subset
column, `split_duplicates` yields a duplicates output of 4 rows and a
unique output of 1 row; and in general the two outputs of
`split_duplicates` partition the input rows: the sizes sum to the input
size and no row value occurs in both outputs. -/
theorem split_duplicates_partition_spec :
    split_duplicates exDf8 exArgs8 =
      [("duplicates", ⟨["k", "v"], [[Val.i 7, Val.i 1], [Val.i 8, Val.i 2],
        [Val.i 7, Val.i 3], [Val.i 8, Val.i 4]]⟩),
       ("unique", ⟨["k", "v"], [[Val.i 10, Val.i 0]]⟩)] ∧
    (splitDupes exDf8 exArgs8).rows.length = 4 ∧
    (splitUnique exDf8 exArgs8).rows.length = 1 ∧
    (∀ df p, (split_duplicates df p).map Prod.snd
        = [splitDupes df p, splitUnique df p]) ∧
    (∀ df p, (splitDupes df p).rows.length + (splitUnique df p).rows.length
        = df.rows.length) ∧
    (∀ df p r, r ∈ (splitDupes df p).rows → r ∉ (splitUnique df p).rows) := by
  refine ⟨rfl, rfl, rfl, fun df p => rfl, split_lengths, ?_⟩
  intro df p r hd hu
  rcases splitDupes_mem.mp hd with ⟨_, h1⟩
  rcases splitUnique_mem.mp hu with ⟨_, h2⟩
  rw [h1] at h2
  exact Bool.noConfusion h2

/-- C8, witness: a concrete duplicate row is not in the unique output. -/
theorem split_duplicates_partition_spec_witness :
    ¬ ([Val.i 7, Val.i 1] ∈ (splitUnique exDf8 exArgs8).rows) :=
  split_duplicates_partition_spec.2.2.2.2.2 exDf8 exArgs8
    [Val.i 7, Val.i 1] (by decide)

/-- C9, counterexample: with `sort_duplicates_by` set to a column of the
frame, the duplicates output of `split_duplicates` is reordered by that
column, so its rows do not keep the relative order they had in the input
(the input rows carry keys 2,1; the output rows carry keys 1,2). -/
theorem split_duplicates_order_cex :
    split_duplicates exDf9 exArgs9 =
      [("duplicates", ⟨["g", "k"], [[Val.s "a", Val.i 1], [Val.s "a", Val.i 2]]⟩),
       ("unique", ⟨["g", "k"], []⟩)] ∧
    exDf9.rows = [[Val.s "a", Val.i 2], [Val.s "a", Val.i 1]] ∧
    List.isSublist (splitDupes exDf9 exArgs9).rows exDf9.rows = false :=
  ⟨rfl, rfl, rfl⟩

/-- C9, amended: the split into duplicate and unique partitions is stable
with respect to input row order whenever `sort_duplicates_by` is absent,
empty, or not a column of the frame; the unique partition preserves the
input order unconditionally (when `sort_duplicates_by` names a column of
the duplicates, that output is instead reordered by the sort column). -/
theorem split_duplicates_order_spec_amended :
    (∀ df p, List.isSublist (splitUnique df p).rows df.rows = true) ∧
    (∀ df p, p.sort_duplicates_by = none →
      List.isSublist (splitDupes df p).rows df.rows = true) ∧
    (∀ df p c, p.sort_duplicates_by = some c →
      c = "" ∨ df.columns.contains c = false →
      List.isSublist (splitDupes df p).rows df.rows = true) :=
  ⟨splitUnique_sublist, splitDupes_sublist_of_nosort,
   fun df p c h hc => splitDupes_sublist_of_badcol df p c h hc⟩

/-- C9, witness for the amended claim: order preservation when no sort
column is given, and when the sort column is not a column of the frame. -/
theorem split_duplicates_order_spec_amended_witness :
    List.isSublist (splitDupes exDf8 exArgs8).rows exDf8.rows = true ∧
    List.isSublist (splitUnique exDf9 exArgs9).rows exDf9.rows = true ∧
    List.isSublist (splitDupes exDf9 exArgs9b).rows exDf9.rows = true :=
  ⟨split_duplicates_order_spec_amended.2.1 exDf8 exArgs8 rfl,
   split_duplicates_order_spec_amended.1 exDf9 exArgs9,
   split_duplicates_order_spec_amended.2.2 exDf9 exArgs9b "zz" rfl
     (Or.inr (by decide))⟩

def exCfgYaml : Yaml := Yaml.map [("precleaning_rules", Yaml.map
  [("description", Yaml.str "demo"),
   ("rules", Yaml.list [Yaml.map
     [("task_name", Yaml.str "reproject"),
      ("description", Yaml.str "to TWD97"),
      ("type", Yaml.str "schema-level"),
      ("action", Yaml.str "convert_crs"),
      ("parameters", Yaml.map [("to_crs", Yaml.str "EPSG:3826")])]])])]

def exCfgV : RootConfigV :=
  ⟨⟨"demo", [⟨"reproject", "to TWD97", "schema-level", "convert_crs",
    Yaml.map [("to_crs", Yaml.str "EPSG:3826")]⟩]⟩⟩

def exCfg4 : RootConfigV :=
  ⟨⟨"demo", [⟨"drop", "drop rows", "row-level", "dropnulls",
    Yaml.map [("index", Yaml.list [Yaml.int 0])]⟩]⟩⟩

def exDropYaml : Yaml := Yaml.map [("precleaning_rules", Yaml.map
  [("description", Yaml.str "demo"),
   ("rules", Yaml.list [Yaml.map
     [("task_name", Yaml.str "drop"),
      ("description", Yaml.str "drop rows"),
      ("type", Yaml.str "row-level"),
      ("action", Yaml.str "dropnulls"),
      ("parameters", Yaml.map [("index", Yaml.list [Yaml.int 0])])]])])]

lemma map_fst_pair {β : Type} (g : String → β) (l : List String) :
    (l.map (fun n => (n, g n))).map Prod.fst = l := by
  induction l with
  | nil => rfl
  | cons a as ih => simp [ih]

set_option maxRecDepth 8000 in
/-- C2: the cross-check succeeds exactly when every action name referenced
by the rules is registered; on failure the aggregated error reports
exactly the missing names (each once), and pairs each missing name with
the single closest registered name precisely when some registered name
reaches the similarity cutoff; concretely, missing name convert_cr
against the real registry suggests convert_crs. -/
theorem crosscheck_actions_spec :
    (∀ (cfg : RootConfigV) (registered : List String),
      crosscheck_actions cfg registered = Except.ok () ↔
        ∀ r ∈ cfg.precleaning_rules.rules, r.action ∈ registered) ∧
    (∀ (cfg : RootConfigV) (registered : List String) errs,
      crosscheck_actions cfg registered = Except.error errs →
        (∀ n, n ∈ errs.map Prod.fst ↔
          (∃ r ∈ cfg.precleaning_rules.rules, r.action = n) ∧ n ∉ registered) ∧
        (errs.map Prod.fst).Nodup ∧
        (∀ pr ∈ errs, pr.2 = get_close_matches1 pr.1 registered ∧
          (pr.2.isSome = true ↔ ∃ m ∈ registered, simGeCutoff m pr.1 = true))) ∧
    crosscheckNames ["convert_cr"] actionRegistryNames =
      Except.error [("convert_cr", some "convert_crs")] := by
  refine ⟨?_, ?_, by rfl⟩
  · intro cfg registered
    rw [show crosscheck_actions cfg registered = crosscheckNames
      (cfg.precleaning_rules.rules.map (fun r => r.action)) registered from rfl,
      crosscheckNames_ok_iff]
    constructor
    · intro h r hr
      exact h r.action (List.mem_map.mpr ⟨r, hr, rfl⟩)
    · intro h n hn
      rcases List.mem_map.mp hn with ⟨r, hr, rfl⟩
      exact h r hr
  · intro cfg registered errs herr
    have herr' : crosscheckNames
        (cfg.precleaning_rules.rules.map (fun r => r.action)) registered
          = Except.error errs := herr
    have heq := crosscheckNames_error_eq herr'
    have hfst : errs.map Prod.fst = missingActions
        (cfg.precleaning_rules.rules.map (fun r => r.action)) registered := by
      rw [heq]
      exact map_fst_pair _ _
    refine ⟨?_, ?_, ?_⟩
    · intro n
      rw [hfst, mem_missingActions]
      constructor
      · rintro ⟨hu, hreg⟩
        rcases List.mem_map.mp hu with ⟨r, hr, hact⟩
        exact ⟨⟨r, hr, hact⟩, hreg⟩
      · rintro ⟨⟨r, hr, hact⟩, hreg⟩
        exact ⟨List.mem_map.mpr ⟨r, hr, hact⟩, hreg⟩
    · rw [hfst]
      exact (List.nodup_dedup _).filter _
    · intro pr hpr
      rw [heq] at hpr
      rcases List.mem_map.mp hpr with ⟨n0, hn0, rfl⟩
      exact ⟨rfl, get_close_matches1_isSome_iff⟩

set_option maxRecDepth 8000 in
/-- C2, witness: the real config with a registered action passes the
cross-check, and the error entry for an unregistered name carries the
suggestion computed by the closest-match model (none is close enough to
dropnulls). -/
theorem crosscheck_actions_spec_witness :
    crosscheck_actions exCfgV actionRegistryNames = Except.ok () ∧
    (none : Option String) = get_close_matches1 "dropnulls" actionRegistryNames :=
  ⟨(crosscheck_actions_spec.1 exCfgV actionRegistryNames).mpr
    (fun r hr => by rcases List.mem_singleton.mp hr with rfl; decide),
   ((crosscheck_actions_spec.2.1 exCfg4 actionRegistryNames
      [("dropnulls", none)] rfl).2.2 ("dropnulls", none)
      (List.mem_cons_self _ _)).1⟩

set_option maxRecDepth 2000 in
/-- C4: the rule schema accepts the action name dropnulls while the
registry registers droprows: dropnulls is accepted by validation and
unregistered, droprows is registered and never accepted by validation,
and every validated configuration containing a dropnulls rule fails the
registry cross-check with dropnulls among the missing names. -/
theorem dropnulls_droprows_mismatch_spec :
    "dropnulls" ∈ schemaActionNames ∧
    "dropnulls" ∉ actionRegistryNames ∧
    "droprows" ∈ actionRegistryNames ∧
    "droprows" ∉ schemaActionNames ∧
    validate_config_dict exDropYaml = Except.ok exCfg4 ∧
    (∀ y cfg, validate_config_dict y = Except.ok cfg →
      ∀ r ∈ cfg.precleaning_rules.rules, r.action ∈ schemaActionNames) ∧
    (∀ cfg : RootConfigV,
      (∃ r ∈ cfg.precleaning_rules.rules, r.action = "dropnulls") →
      ∃ es, crosscheck_actions cfg actionRegistryNames = Except.error es ∧
        "dropnulls" ∈ es.map Prod.fst) := by
  refine ⟨by decide, by decide, by decide, by decide, by rfl, ?_, ?_⟩
  · intro y cfg hv r hr
    rcases validate_config_dict_ok hv with ⟨ys, _, hrules⟩
    rcases validateRulesFrom_ok_mem hrules r hr with ⟨y0, _, hok⟩
    exact validateRule_ok_action hok
  · intro cfg hex
    rcases hex with ⟨r, hr, ha⟩
    have hu : "dropnulls" ∈ cfg.precleaning_rules.rules.map (fun r => r.action) :=
      List.mem_map.mpr ⟨r, hr, ha⟩
    exact crosscheckNames_error_of_mem hu (by decide)

/-- C4, witness: a validated configuration with one dropnulls rule fails
the cross-check against the real registry. -/
theorem dropnulls_droprows_mismatch_spec_witness :
    ∃ es, crosscheck_actions exCfg4 actionRegistryNames = Except.error es ∧
      "dropnulls" ∈ es.map Prod.fst :=
  dropnulls_droprows_mismatch_spec.2.2.2.2.2.2 exCfg4
    ⟨_, List.mem_cons_self _ _, rfl⟩

/-- C5: for every parsed configuration that passes schema validation and
whose every referenced action is registered, load_and_validate succeeds
and returns the validated configuration, whose rule list validates the
declared rule entries one-to-one, in declaration order (equal lengths,
entry k validating to rule k). -/
theorem load_and_validate_spec :
    ∀ (y : Yaml) (registered : List String) (cfg : RootConfigV),
      validate_config_dict y = Except.ok cfg →
      (∀ r ∈ cfg.precleaning_rules.rules, r.action ∈ registered) →
      load_and_validate y registered = Except.ok cfg ∧
      ∃ ys, declaredRules y = some ys ∧
        cfg.precleaning_rules.rules.length = ys.length ∧
        ∀ k (hk : k < ys.length) (hk' : k < cfg.precleaning_rules.rules.length),
          validateRule (ys.get ⟨k, hk⟩)
            = Except.ok (cfg.precleaning_rules.rules.get ⟨k, hk'⟩) := by
  intro y registered cfg hv hreg
  have hcc : crosscheckNames
      (cfg.precleaning_rules.rules.map (fun r => r.action)) registered
        = Except.ok () := by
    rw [crosscheckNames_ok_iff]
    intro n hn
    rcases List.mem_map.mp hn with ⟨r, hr, rfl⟩
    exact hreg r hr
  constructor
  · simp [load_and_validate, hv, crosscheck_actions, hcc]
  · rcases validate_config_dict_ok hv with ⟨ys, hys, hrules⟩
    rcases validateRulesFrom_ok hrules with ⟨hlen, hget⟩
    exact ⟨ys, hys, hlen, fun k hk hk' => hget k hk hk'⟩

set_option maxRecDepth 8000 in
/-- C5, witness at a one-rule configuration against the real registry. -/
theorem load_and_validate_spec_witness :
    load_and_validate exCfgYaml actionRegistryNames = Except.ok exCfgV ∧
    ∃ ys, declaredRules exCfgYaml = some ys ∧
      exCfgV.precleaning_rules.rules.length = ys.length ∧
      ∀ k (hk : k < ys.length)
          (hk' : k < exCfgV.precleaning_rules.rules.length),
        validateRule (ys.get ⟨k, hk⟩)
          = Except.ok (exCfgV.precleaning_rules.rules.get ⟨k, hk'⟩) :=
  load_and_validate_spec exCfgYaml actionRegistryNames exCfgV rfl
    (fun r hr => by rcases List.mem_singleton.mp hr with rfl; decide)

/-- A configuration tree carrying several schema violations in distinct
rules (an ill-typed `task_name` and an undeclared parameter field in rule
0, a missing required parameter field in rule 1). -/
def exBadYaml : Yaml := Yaml.map [("precleaning_rules", Yaml.map
  [("description", Yaml.str "demo"),
   ("rules", Yaml.list
     [Yaml.map
       [("task_name", Yaml.int 3),
        ("description", Yaml.str "dd"),
        ("type", Yaml.str "schema-level"),
        ("action", Yaml.str "convert_crs"),
        ("parameters", Yaml.map [("to_crs", Yaml.str "EPSG:3826"),
                                 ("bogus", Yaml.int 1)])],
      Yaml.map
       [("task_name", Yaml.str "t"),
        ("description", Yaml.str "dd"),
        ("type", Yaml.str "row-level"),
        ("action", Yaml.str "rename_columns"),
        ("parameters", Yaml.map [])]])])]

def exBadRules : List Yaml :=
  [Yaml.map
    [("task_name", Yaml.int 3),
     ("description", Yaml.str "dd"),
     ("type", Yaml.str "schema-level"),
     ("action", Yaml.str "convert_crs"),
     ("parameters", Yaml.map [("to_crs", Yaml.str "EPSG:3826"),
                              ("bogus", Yaml.int 1)])],
   Yaml.map
    [("task_name", Yaml.str "t"),
     ("description", Yaml.str "dd"),
     ("type", Yaml.str "row-level"),
     ("action", Yaml.str "rename_columns"),
     ("parameters", Yaml.map [])]]

def exBadIssues : List Issue :=
  [⟨["precleaning_rules", "rules", "0", "task_name"], "Input type mismatch"⟩,
   ⟨["precleaning_rules", "rules", "0", "parameters", "bogus"],
     "Extra inputs are not permitted"⟩,
   ⟨["precleaning_rules", "rules", "1", "parameters", "mappings"],
     "Field required"⟩]

/-- C6: validation does not stop at the first violation: whenever the
declared rules list exists, every issue of every rule entry appears,
prefixed by its rule index path, in the one aggregated error that
`validate_config_dict` returns, and any rule entry with an issue forces
the aggregated error. -/
theorem validation_aggregates_spec :
    (∀ y ys es, declaredRules y = some ys →
      validate_config_dict y = Except.error es →
      ∀ k (hk : k < ys.length) iss,
        iss ∈ errIssues (validateRule (ys.get ⟨k, hk⟩)) →
        pushLoc "precleaning_rules" (pushLoc "rules" (pushLoc (Nat.repr k) iss))
          ∈ es) ∧
    (∀ y ys, declaredRules y = some ys →
      ∀ k (hk : k < ys.length) iss,
        iss ∈ errIssues (validateRule (ys.get ⟨k, hk⟩)) →
        ∃ es, validate_config_dict y = Except.error es) := by
  constructor
  · intro y ys es hd hv k hk iss hiss
    rcases declaredRules_some hd with ⟨kvs, pkvs, rfl, hp, hr⟩
    rcases h2 : validateRulesFrom 0 ys with esr | rs
    · have hmem := validateRulesFrom_error_mem 0 k hk iss hiss
      rw [h2] at hmem
      simp only [errIssues] at hmem
      rw [Nat.zero_add] at hmem
      have hroot := validate_config_dict_pre_error_eq hp
        (validatePrecleaning_rules_error_eq hr h2)
      rw [hroot] at hv
      have hes := (Except.error.injEq _ _).mp hv
      rw [← hes]
      refine List.mem_append_right _ ?_
      refine List.mem_map.mpr ⟨pushLoc "rules" (pushLoc (Nat.repr k) iss), ?_, rfl⟩
      exact List.mem_append_right _ (List.mem_map.mpr ⟨_, hmem, rfl⟩)
    · rcases validateRulesFrom_ok h2 with ⟨hlen, hget⟩
      have hk' : k < rs.length := by
        rw [hlen]
        exact hk
      rw [hget k hk hk'] at hiss
      simp [errIssues] at hiss
  · intro y ys hd k hk iss hiss
    rcases declaredRules_some hd with ⟨kvs, pkvs, rfl, hp, hr⟩
    rcases h2 : validateRulesFrom 0 ys with esr | rs
    · exact ⟨_, validate_config_dict_pre_error_eq hp
        (validatePrecleaning_rules_error_eq hr h2)⟩
    · rcases validateRulesFrom_ok h2 with ⟨hlen, hget⟩
      have hk' : k < rs.length := by
        rw [hlen]
        exact hk
      rw [hget k hk hk'] at hiss
      simp [errIssues] at hiss

set_option maxRecDepth 4000 in
/-- C6, witness: on the two-rule configuration with three violations, the
issues of rule 0 and of rule 1 are reported together in the single
aggregated error. -/
theorem validation_aggregates_spec_witness :
    pushLoc "precleaning_rules" (pushLoc "rules" (pushLoc (Nat.repr 0)
      ⟨["task_name"], "Input type mismatch"⟩)) ∈ exBadIssues ∧
    pushLoc "precleaning_rules" (pushLoc "rules" (pushLoc (Nat.repr 1)
      ⟨["parameters", "mappings"], "Field required"⟩)) ∈ exBadIssues :=
  ⟨validation_aggregates_spec.1 exBadYaml exBadRules exBadIssues rfl rfl
     0 (by decide) ⟨["task_name"], "Input type mismatch"⟩ (by decide),
   validation_aggregates_spec.1 exBadYaml exBadRules exBadIssues rfl rfl
     1 (by decide) ⟨["parameters", "mappings"], "Field required"⟩ (by decide)⟩

/-- C7: a parameter object containing a field not declared in the schema
of its action fails validation: at the parameter model the undeclared
field is reported as an extra input, and any rule entry of that action
whose parameter object carries the undeclared field is rejected,
regardless of the remaining fields. -/
theorem extra_param_field_spec :
    (∀ (a : String) (specs : List FieldSpec), lookupVariant a = some specs →
      ∀ (pkvs : List (String × Yaml)) (k : String) (v : Yaml),
        (k, v) ∈ pkvs → k ∉ specs.map (fun f => f.name) →
        (⟨[k], "Extra inputs are not permitted"⟩ : Issue)
          ∈ validateClosed specs (Yaml.map pkvs)) ∧
    (∀ (a : String) (specs : List FieldSpec) (kvs pkvs : List (String × Yaml))
        (k : String) (v : Yaml),
      lookupVariant a = some specs →
      lookupY kvs "action" = some (Yaml.str a) →
      lookupY kvs "parameters" = some (Yaml.map pkvs) →
      (k, v) ∈ pkvs → k ∉ specs.map (fun f => f.name) →
      ∃ es, validateRule (Yaml.map kvs) = Except.error es ∧
        pushLoc "parameters" ⟨[k], "Extra inputs are not permitted"⟩ ∈ es) := by
  constructor
  · intro a specs _ pkvs k v hkv hnot
    exact extra_issue_mem_validateClosed hkv hnot
  · intro a specs kvs pkvs k v hvar ha hp hkv hnot
    exact validateRule_error_of_extra_param hvar ha hp hkv hnot

def exRuleKvs : List (String × Yaml) :=
  [("task_name", Yaml.str "reproject"), ("description", Yaml.str "to TWD97"),
   ("type", Yaml.str "schema-level"), ("action", Yaml.str "convert_crs"),
   ("parameters", Yaml.map [("to_crs", Yaml.str "EPSG:3826"),
                            ("bogus", Yaml.int 1)])]

/-- C7, witness: a convert_crs rule whose otherwise-valid parameters carry
the undeclared field bogus is rejected with the extra-input issue. -/
theorem extra_param_field_spec_witness :
    ∃ es, validateRule (Yaml.map exRuleKvs) = Except.error es ∧
      pushLoc "parameters" ⟨["bogus"], "Extra inputs are not permitted"⟩ ∈ es :=
  extra_param_field_spec.2 "convert_crs" ConvertCRSParams exRuleKvs
    [("to_crs", Yaml.str "EPSG:3826"), ("bogus", Yaml.int 1)] "bogus" (Yaml.int 1)
    rfl rfl rfl (List.mem_cons_of_mem _ (List.mem_cons_self _ _)) (by decide)

end ETL
